import Mathlib

/-!
Shallow embedding of the accounting MCP server
(`accounting_mcp/models.py`, `storage.py`, `tools.py`, `server.py`,
`studio_server.py`) and proofs about the spec's claims.

Conventions of the embedding:
* monetary amounts (Python floats) are modelled as rationals `ℚ`;
* timestamps (Python `datetime`) are modelled as `Nat` microseconds on the
  proleptic-Gregorian ordinal axis used by `datetime` itself
  (`days before year` / `days before month` arithmetic below);
* persisted JSON state is modelled as an in-memory `Store` record: the
  persistence round-trip through files is identity on the data and is not
  modelled;
* nondeterministic inputs of the code (`uuid4()`, `datetime.now()`) are
  passed in as explicit arguments;
* human-readable `message` strings built with float formatting are elided
  from results; error strings are kept verbatim.
-/

namespace AccountingMCP

/-- `models.Transaction` (pydantic model in `models.py`). -/
structure Transaction where
  id : Option String
  amount : ℚ
  category : String
  description : Option String
  timestamp : Nat
  tags : List String
deriving DecidableEq

/-- `models.Category`. -/
structure Category where
  name : String
  type : String
  icon : Option String
deriving DecidableEq

/-- `models.MonthlySummary`; `category_expenses` is a Python `dict`
(insertion ordered), modelled as an association list. -/
structure MonthlySummary where
  month : String
  total_income : ℚ
  total_expense : ℚ
  balance_change : ℚ
  category_expenses : List (String × ℚ)
deriving DecidableEq

/-- The three JSON documents owned by `StorageManager`
(`transactions.json`, `categories.json`, `account.json`). -/
structure Store where
  transactions : List Transaction
  categories : List Category
  total_balance : ℚ
deriving DecidableEq

/-- The default category seed written by
`StorageManager._init_default_data` (`storage.py` lines 32-40). -/
def defaultCategories : List Category :=
  [⟨"food", "expense", some "🍔"⟩,
   ⟨"transport", "expense", some "🚗"⟩,
   ⟨"shopping", "expense", some "🛍️"⟩,
   ⟨"entertainment", "expense", some "🎬"⟩,
   ⟨"salary", "income", some "💼"⟩,
   ⟨"bonus", "income", some "🎁"⟩,
   ⟨"investment", "income", some "📈"⟩]

/-- A freshly initialized store: empty transaction log, default seed
categories, `total_balance = 0.0`. -/
def initStore : Store :=
  ⟨[], defaultCategories, 0⟩

/-! ## `StorageManager.add_transaction`, `get_balance`, `get_categories` -/

/-- `StorageManager.add_transaction` (`storage.py` lines 71-91): assign an
id when absent (`uuid4()` modelled as the explicit `newId` argument),
append to the log, add the amount to `total_balance`, return the saved
transaction. -/
def StorageManager.add_transaction (s : Store) (newId : String)
    (transaction : Transaction) : Store × Transaction :=
  let transaction :=
    if transaction.id.isNone then { transaction with id := some newId }
    else transaction
  (⟨s.transactions ++ [transaction], s.categories,
    s.total_balance + transaction.amount⟩, transaction)

/-- `StorageManager.get_balance` (`storage.py` lines 123-126). -/
def StorageManager.get_balance (s : Store) : ℚ :=
  s.total_balance

/-- `StorageManager.get_categories` (`storage.py` lines 118-121). -/
def StorageManager.get_categories (s : Store) : List Category :=
  s.categories

/-! ## `StorageManager.get_transactions`

The Python loop applies three `continue` guards, then sorts the result by
timestamp descending with Python's stable `list.sort(reverse=True)`. -/

/-- Guard `if category and t["category"] != category: continue`
(`storage.py` line 105).  Python truthiness: `None` and `""` are falsy. -/
def catSkip (category : Option String) (t : Transaction) : Bool :=
  match category with
  | some c => !(c == "") && !(t.category == c)
  | none => false

/-- Guard `if start_date and t_datetime < start_date: continue`
(`storage.py` line 107). -/
def startSkip (start_date : Option Nat) (t : Transaction) : Bool :=
  match start_date with
  | some d => decide (t.timestamp < d)
  | none => false

/-- Guard `if end_date and t_datetime > end_date: continue`
(`storage.py` line 109). -/
def endSkip (end_date : Option Nat) (t : Transaction) : Bool :=
  match end_date with
  | some d => decide (d < t.timestamp)
  | none => false

/-- The result-building loop of `get_transactions`
(`storage.py` lines 100-112). -/
def filterLoop (category : Option String) (start_date end_date : Option Nat) :
    List Transaction → List Transaction
  | [] => []
  | t :: ts =>
    if catSkip category t then filterLoop category start_date end_date ts
    else if startSkip start_date t then filterLoop category start_date end_date ts
    else if endSkip end_date t then filterLoop category start_date end_date ts
    else t :: filterLoop category start_date end_date ts

/-- One step of a stable descending insertion sort: the new element `t`
goes before the first element with a strictly smaller timestamp, hence
after all earlier elements with an equal timestamp (matching the
stability of Python's `list.sort`). -/
def insertDesc (t : Transaction) : List Transaction → List Transaction
  | [] => [t]
  | u :: us =>
    if u.timestamp < t.timestamp then t :: u :: us
    else u :: insertDesc t us

/-- `result.sort(key=lambda x: x.timestamp, reverse=True)`
(`storage.py` line 115): stable sort, timestamp descending. -/
def sortDesc (l : List Transaction) : List Transaction :=
  l.foldl (fun acc t => insertDesc t acc) []

/-- `StorageManager.get_transactions` (`storage.py` lines 93-116). -/
def StorageManager.get_transactions (s : Store) (category : Option String)
    (start_date end_date : Option Nat) : List Transaction :=
  sortDesc (filterLoop category start_date end_date s.transactions)

/-! ## `AccountingTools` (`tools.py`) -/

/-- The result dictionary of `AccountingTools.add_transaction`:
either the error dictionary built at `tools.py` lines 34-38
(`success: False`) or the success dictionary of lines 52-57
(`success: True`; the formatted `message` string is elided). -/
inductive AddResult where
  | failure (error : String) (available_categories : List String)
  | ok (transaction : Transaction) (current_balance : ℚ)
deriving DecidableEq

/-- The `success` flag carried by the result dictionary. -/
def AddResult.success : AddResult → Bool
  | .failure _ _ => false
  | .ok _ _ => true

/-- `AccountingTools.add_transaction` (`tools.py` lines 17-57).
`newId` models the `uuid4()` drawn inside the storage layer and `now`
models `datetime.now()` used by the `Transaction` timestamp default. -/
def AccountingTools.add_transaction (s : Store) (newId : String) (now : Nat)
    (amount : ℚ) (category : String) (description : Option String)
    (tags : Option (List String)) : Store × AddResult :=
  let categories := (StorageManager.get_categories s).map (fun c => c.name)
  if category ∈ categories then
    let transaction : Transaction :=
      ⟨none, amount, category, description, now, tags.getD []⟩
    let r := StorageManager.add_transaction s newId transaction
    (r.1, AddResult.ok r.2 (StorageManager.get_balance r.1))
  else
    (s, AddResult.failure ("分类 \x27" ++ category ++ "\x27 不存在") categories)

/-- `AccountingTools.list_transactions` (`tools.py` lines 71-95):
`days` is turned into a lower time bound `now - timedelta(days=days)`;
`if days:` is Python truthiness, so `days = 0` applies no bound.
(The returned dictionary also repeats the count and a message; the
transaction list is the content.) -/
def AccountingTools.list_transactions (s : Store) (now : Nat)
    (category : Option String) (days : Option Nat) : List Transaction :=
  let start_date : Option Nat :=
    match days with
    | some d => if d == 0 then none else some (now - d * 86400000000)
    | none => none
  StorageManager.get_transactions s category start_date none

/-! ## Calendar arithmetic for `get_monthly_summary`

`datetime(year, month, 1)` and `timedelta(seconds=1)` are modelled on the
proleptic-Gregorian ordinal axis that Python's `datetime` uses, in
microseconds (its internal resolution). -/

/-- Gregorian leap-year rule (as in Python's `calendar.isleap`). -/
def isLeap (y : Nat) : Bool :=
  (y % 4 == 0 && y % 100 != 0) || y % 400 == 0

/-- Length of month `m` of year `y`. -/
def daysInMonth (y m : Nat) : Nat :=
  if m == 2 then (if isLeap y then 29 else 28)
  else if m == 4 || m == 6 || m == 9 || m == 11 then 30
  else 31

/-- Days of the proleptic Gregorian calendar strictly before year `y`
(year 1 is day 0, as in `datetime.toordinal`). -/
def daysBeforeYear (y : Nat) : Nat :=
  365 * (y - 1) + (y - 1) / 4 - (y - 1) / 100 + (y - 1) / 400

/-- Days of year `y` strictly before month `m`. -/
def daysBeforeMonth (y : Nat) : Nat → Nat
  | 0 => 0
  | 1 => 0
  | n + 1 => daysBeforeMonth y n + daysInMonth y n

/-- `datetime(y, m, d, hh, mi, ss, us)` as microseconds on the ordinal
axis. -/
def dtMicros (y m d hh mi ss us : Nat) : Nat :=
  ((((daysBeforeYear y + daysBeforeMonth y m + (d - 1)) * 24 + hh) * 60
      + mi) * 60 + ss) * 1000000 + us

/-- `datetime(target_year, target_month, 1)` (`tools.py` line 117). -/
def monthStartMicros (y m : Nat) : Nat :=
  dtMicros y m 1 0 0 0 0

/-- The `end_date` of `get_monthly_summary` (`tools.py` lines 118-121):
start of the next month minus `timedelta(seconds=1)`. -/
def monthEndMicros (y m : Nat) : Nat :=
  (if m == 12 then monthStartMicros (y + 1) 1
   else monthStartMicros y (m + 1)) - 1000000

/-- The transactions selected by `get_monthly_summary`
(`tools.py` lines 124-127): `get_transactions` with both time bounds. -/
def monthTransactions (s : Store) (year month : Nat) : List Transaction :=
  StorageManager.get_transactions s none (some (monthStartMicros year month))
    (some (monthEndMicros year month))

/-- Left-pad a decimal string with zeros, for `f"{y:04d}-{m:02d}"`. -/
def padZeros (w : Nat) (s : String) : String :=
  if s.length < w then String.mk (List.replicate (w - s.length) '0') ++ s
  else s

/-- `month_str = f"{target_year:04d}-{target_month:02d}"`
(`tools.py` line 114). -/
def monthStr (y m : Nat) : String :=
  padZeros 4 (toString y) ++ "-" ++ padZeros 2 (toString m)

/-- In-place update of an insertion-ordered dict entry:
`dict[k] = f(dict[k])` keeps the key's position. -/
def updateAssoc (m : List (String × ℚ)) (k : String) (f : ℚ → ℚ) :
    List (String × ℚ) :=
  match m with
  | [] => []
  | (k2, v) :: rest =>
    if k2 == k then (k2, f v) :: rest
    else (k2, v) :: updateAssoc rest k f

/-- The `category_expenses` loop of `get_monthly_summary`
(`tools.py` lines 135-140): for each expense, insert the category with 0
when absent, then add `abs(t.amount)`. -/
def categoryExpensesLoop (m : List (String × ℚ)) :
    List Transaction → List (String × ℚ)
  | [] => m
  | t :: ts =>
    if t.amount < 0 then
      let m1 := if (m.lookup t.category).isNone then m ++ [(t.category, 0)]
                else m
      categoryExpensesLoop (updateAssoc m1 t.category (fun v => v + |t.amount|)) ts
    else categoryExpensesLoop m ts

/-- `sum(t.amount for t in transactions if t.amount > 0)`
(`tools.py` line 130). -/
def sumIncome (transactions : List Transaction) : ℚ :=
  ((transactions.filter (fun t => decide (0 < t.amount))).map
    (fun t => t.amount)).foldl (fun a b => a + b) 0

/-- `sum(abs(t.amount) for t in transactions if t.amount < 0)`
(`tools.py` line 131). -/
def sumExpense (transactions : List Transaction) : ℚ :=
  ((transactions.filter (fun t => decide (t.amount < 0))).map
    (fun t => |t.amount|)).foldl (fun a b => a + b) 0

/-- `AccountingTools.get_monthly_summary` (`tools.py` lines 97-153).
The source defaults `year`/`month` to `datetime.now()`; the model takes
them explicitly.  The wrapping dictionary and message are elided: the
`MonthlySummary` is the content. -/
def AccountingTools.get_monthly_summary (s : Store) (year month : Nat) :
    MonthlySummary :=
  let transactions := monthTransactions s year month
  let total_income := sumIncome transactions
  let total_expense := sumExpense transactions
  ⟨monthStr year month, total_income, total_expense,
   total_income - total_expense, categoryExpensesLoop [] transactions⟩

/-! ## `MCPServer.handle_request` (`server.py` lines 252-353)

Requests are JSON dictionaries; the dispatcher only reads the keys
`jsonrpc`, `id`, `method`, `params`, `resource`, so a request is
modelled by those fields (`none` = key absent; for `id`, Python's
`request.get("id")` also maps a JSON `null` to `None`, so `none` covers
both).  Handler payloads are abstracted by type parameters: `π` is the
`params` value, `ρ` the handler result.  A raised Python exception is
modelled as `Except.error` carrying `str(e)` and
`traceback.format_exc()`. -/

/-- A JSON-RPC request id (string or number). -/
inductive RpcId where
  | str (s : String)
  | num (n : Int)
deriving DecidableEq

/-- `str(e)` and `traceback.format_exc()` of a raised exception. -/
structure PyError where
  msg : String
  trace : String
deriving DecidableEq

/-- The request envelope fields read by the dispatcher. -/
structure Request (π : Type) where
  jsonrpc : Option String
  id : Option RpcId
  method : Option String
  params : Option π
  resource : Option String

/-- The `result` or `error` member of a response dictionary;
`error` carries `code`, `message` and an optional `data` string. -/
inductive RespBody (ρ : Type) where
  | result (v : ρ)
  | error (code : Int) (message : String) (data : Option String)
deriving DecidableEq

/-- A response dictionary: every literal built by `handle_request` has
exactly the keys `jsonrpc`, `result`-or-`error`, `id`. -/
structure Response (ρ : Type) where
  jsonrpc : String
  body : RespBody ρ
  id : Option RpcId
deriving DecidableEq

/-- The `self.tools` and `self.resources` tables of `MCPServer.__init__`
(`server.py` lines 37-50), with abstract handlers. -/
structure Server (π ρ : Type) where
  tools : List (String × (Option π → Except PyError ρ))
  resources : List (String × (Unit → Except PyError ρ))

/-- `MCPServer.handle_request` (`server.py` lines 252-353).  The trailing
`except` for system errors (code -32603) is unreachable in the model:
every branch below is total. -/
def handle_request (s : Server π ρ) (req : Request π) : Response ρ :=
  if req.jsonrpc != some "2.0" then
    ⟨"2.0", RespBody.error (-32600) "无效的JSON-RPC请求" none, req.id⟩
  else
    match req.method with
    | some m =>
      match s.tools.lookup m with
      | none =>
        ⟨"2.0", RespBody.error (-32601) ("方法 \x27" ++ m ++ "\x27 不存在") none,
         req.id⟩
      | some h =>
        match h req.params with
        | Except.ok v => ⟨"2.0", RespBody.result v, req.id⟩
        | Except.error e =>
          ⟨"2.0",
           RespBody.error (-32602) ("方法执行错误: " ++ e.msg) (some e.trace),
           req.id⟩
    | none =>
      match req.resource with
      | some r =>
        match s.resources.lookup r with
        | none =>
          ⟨"2.0", RespBody.error (-32601) ("资源 \x27" ++ r ++ "\x27 不存在") none,
           req.id⟩
        | some h =>
          match h () with
          | Except.ok v => ⟨"2.0", RespBody.result v, req.id⟩
          | Except.error e =>
            ⟨"2.0", RespBody.error (-32602) ("资源访问错误: " ++ e.msg) none,
             req.id⟩
      | none =>
        ⟨"2.0", RespBody.error (-32600) "请求必须包含 method 或 resource 字段" none,
         req.id⟩

/-- The keys of the Python response dictionary built by `handle_request`:
every branch of the source builds a three-key literal whose keys are
`jsonrpc`, then `result` or `error`, then `id`. -/
def respKeys (r : Response ρ) : List String :=
  match r.body with
  | RespBody.result _ => ["jsonrpc", "result", "id"]
  | RespBody.error _ _ _ => ["jsonrpc", "error", "id"]

/-- The batch loop shared by `MCPServer.run` (`server.py` lines 376-383)
and `StudioRequestHandler.do_POST` (`studio_server.py` lines 89-96):
`responses.append(response)` gated by `if response and "id" in response` —
dict truthiness (non-empty key list) and key membership of `"id"`. -/
def processBatch (s : Server π ρ) (reqs : List (Request π)) :
    List (Response ρ) :=
  (reqs.map (handle_request s)).filter
    (fun r => !(respKeys r).isEmpty && (respKeys r).contains "id")

/-- `if responses: print(json.dumps(responses, ...))`
(`server.py` lines 382-383): the emitted batch output, `none` when the
accumulated list is empty and nothing is printed. -/
def batchOutput (s : Server π ρ) (reqs : List (Request π)) :
    Option (List (Response ρ)) :=
  let responses := processBatch s reqs
  if responses.isEmpty then none else some responses

/-! ## Lemmas about the sort and the filter loop -/

/-- Timestamp-descending order between two transactions. -/
def Desc (a b : Transaction) : Prop :=
  b.timestamp ≤ a.timestamp

theorem insertDesc_perm (t : Transaction) :
    ∀ l, List.Perm (insertDesc t l) (t :: l)
  | [] => List.Perm.refl _
  | u :: us => by
    unfold insertDesc
    split
    · exact List.Perm.refl _
    · exact (List.Perm.cons u (insertDesc_perm t us)).trans
        (List.Perm.swap t u us)

theorem mem_insertDesc {x t : Transaction} {l : List Transaction} :
    x ∈ insertDesc t l ↔ x = t ∨ x ∈ l := by
  rw [(insertDesc_perm t l).mem_iff, List.mem_cons]

theorem insertDesc_pairwise {t : Transaction} {l : List Transaction}
    (h : List.Pairwise Desc l) :
    List.Pairwise Desc (insertDesc t l) := by
  induction l with
  | nil => simp [insertDesc]
  | cons u us ih =>
    rcases List.pairwise_cons.mp h with ⟨hu, hus⟩
    unfold insertDesc
    split
    · rename_i hlt
      refine List.pairwise_cons.mpr ⟨?_, h⟩
      intro x hx
      rcases List.mem_cons.mp hx with rfl | hx
      · exact Nat.le_of_lt hlt
      · exact Nat.le_trans (hu x hx) (Nat.le_of_lt hlt)
    · rename_i hge
      refine List.pairwise_cons.mpr ⟨?_, ih hus⟩
      intro x hx
      rcases mem_insertDesc.mp hx with rfl | hx
      · exact Nat.le_of_not_lt hge
      · exact hu x hx

theorem foldl_insertDesc_perm :
    ∀ (l acc : List Transaction),
      List.Perm (l.foldl (fun acc t => insertDesc t acc) acc) (l ++ acc)
  | [], acc => by simp
  | t :: ts, acc => by
    simp only [List.foldl_cons, List.cons_append]
    exact (foldl_insertDesc_perm ts (insertDesc t acc)).trans
      (((insertDesc_perm t acc).append_left ts).trans List.perm_middle)

theorem sortDesc_perm (l : List Transaction) : List.Perm (sortDesc l) l := by
  simpa using foldl_insertDesc_perm l []

theorem foldl_insertDesc_pairwise :
    ∀ (l acc : List Transaction), List.Pairwise Desc acc →
      List.Pairwise Desc (l.foldl (fun acc t => insertDesc t acc) acc)
  | [], _, h => h
  | t :: ts, acc, h =>
    foldl_insertDesc_pairwise ts (insertDesc t acc) (insertDesc_pairwise h)

theorem sortDesc_pairwise (l : List Transaction) :
    List.Pairwise Desc (sortDesc l) :=
  foldl_insertDesc_pairwise l [] List.Pairwise.nil

theorem filterLoop_eq_filter (c : Option String) (sd ed : Option Nat) :
    ∀ l, filterLoop c sd ed l =
      l.filter (fun t => !catSkip c t && !startSkip sd t && !endSkip ed t)
  | [] => rfl
  | t :: ts => by
    simp only [filterLoop, List.filter]
    cases h1 : catSkip c t <;> cases h2 : startSkip sd t <;>
      cases h3 : endSkip ed t <;>
      simp [h1, h2, h3, filterLoop_eq_filter c sd ed ts]

theorem get_transactions_perm (s : Store) (c : Option String)
    (sd ed : Option Nat) :
    List.Perm (StorageManager.get_transactions s c sd ed)
      (s.transactions.filter
        (fun t => !catSkip c t && !startSkip sd t && !endSkip ed t)) := by
  rw [StorageManager.get_transactions, filterLoop_eq_filter]
  exact sortDesc_perm _

theorem get_transactions_pairwise (s : Store) (c : Option String)
    (sd ed : Option Nat) :
    List.Pairwise Desc (StorageManager.get_transactions s c sd ed) :=
  sortDesc_pairwise _

/-! ## Sequences of `AddTransaction` calls (for C1) -/

/-- The arguments of one `AccountingTools.add_transaction` call
(`newId` and `now` stand for the call's `uuid4()` and `datetime.now()`). -/
structure AddCall where
  newId : String
  now : Nat
  amount : ℚ
  category : String
  description : Option String
  tags : Option (List String)

/-- Apply one `AccountingTools.add_transaction` call to a store. -/
def applyCall (s : Store) (c : AddCall) : Store × AddResult :=
  AccountingTools.add_transaction s c.newId c.now c.amount c.category
    c.description c.tags

/-- Apply a sequence of calls, threading the store. -/
def runCalls (s : Store) : List AddCall → Store
  | [] => s
  | c :: cs => runCalls (applyCall s c).1 cs

/-- Every call of the sequence, applied in order, returns
`success = True`. -/
def allOk (s : Store) : List AddCall → Bool
  | [] => true
  | c :: cs => (applyCall s c).2.success && allOk (applyCall s c).1 cs

theorem applyCall_success_balance (s : Store) (c : AddCall)
    (h : (applyCall s c).2.success = true) :
    StorageManager.get_balance (applyCall s c).1
      = StorageManager.get_balance s + c.amount := by
  by_cases hc : c.category ∈ (StorageManager.get_categories s).map
      (fun cat => cat.name)
  · simp [applyCall, AccountingTools.add_transaction, hc,
      StorageManager.add_transaction, StorageManager.get_balance]
  · simp [applyCall, AccountingTools.add_transaction, hc,
      AddResult.success] at h

theorem applyCall_failure_store (s : Store) (c : AddCall)
    (h : (applyCall s c).2.success = false) :
    (applyCall s c).1 = s := by
  by_cases hc : c.category ∈ (StorageManager.get_categories s).map
      (fun cat => cat.name)
  · simp [applyCall, AccountingTools.add_transaction, hc,
      AddResult.success] at h
  · simp [applyCall, AccountingTools.add_transaction, hc]

theorem runCalls_balance :
    ∀ (calls : List AddCall) (s : Store), allOk s calls = true →
      StorageManager.get_balance (runCalls s calls)
        = StorageManager.get_balance s + (calls.map (fun c => c.amount)).sum
  | [], s, _ => by simp [runCalls]
  | c :: cs, s, h => by
    rcases Bool.and_eq_true_iff.mp h with ⟨h1, h2⟩
    calc StorageManager.get_balance (runCalls (applyCall s c).1 cs)
        = StorageManager.get_balance (applyCall s c).1
            + (cs.map (fun c => c.amount)).sum := runCalls_balance cs _ h2
      _ = StorageManager.get_balance s + c.amount
            + (cs.map (fun c => c.amount)).sum := by
          rw [applyCall_success_balance s c h1]
      _ = StorageManager.get_balance s
            + ((c :: cs).map (fun c => c.amount)).sum := by
          simp [add_assoc]

/-- C1: starting from a freshly initialized store (balance 0), any
sequence of successful `AddTransaction` calls leaves `GetBalance()`
equal to the sum of the amounts of those calls; and incrementally, each
successful call adds exactly its amount to the stored total. -/
theorem C1_balance_invariant (calls : List AddCall)
    (h : allOk initStore calls = true) :
    StorageManager.get_balance (runCalls initStore calls)
      = (calls.map (fun c => c.amount)).sum
  ∧ ∀ (s : Store) (c : AddCall), (applyCall s c).2.success = true →
      StorageManager.get_balance (applyCall s c).1
        = StorageManager.get_balance s + c.amount := by
  constructor
  · have := runCalls_balance calls initStore h
    simpa [initStore, StorageManager.get_balance] using this
  · exact applyCall_success_balance

/-- Concrete calls of the spec's scenario: an expense of 50 and an income
of 5000 (timestamps are arbitrary). -/
def c1Calls : List AddCall :=
  [⟨"id-1", 1000, -50, "food", some "lunch", none⟩,
   ⟨"id-2", 2000, 5000, "salary", none, none⟩]

theorem C1_balance_invariant_witness :
    allOk initStore c1Calls = true
    ∧ StorageManager.get_balance (runCalls initStore c1Calls)
        = (c1Calls.map (fun c => c.amount)).sum :=
  ⟨by decide, (C1_balance_invariant c1Calls (by decide)).1⟩

/-- C2: `AddTransaction` with a category absent from `GetCategories()`
returns the `success = False` error dictionary and leaves the store
entirely unchanged (no transaction appended, balance unchanged). -/
theorem C2_invalid_category_rejected (s : Store) (newId : String) (now : Nat)
    (amount : ℚ) (category : String) (description : Option String)
    (tags : Option (List String))
    (h : category ∉ (StorageManager.get_categories s).map (fun c => c.name)) :
    AccountingTools.add_transaction s newId now amount category description tags
      = (s, AddResult.failure ("分类 \x27" ++ category ++ "\x27 不存在")
          ((StorageManager.get_categories s).map (fun c => c.name)))
  ∧ (AccountingTools.add_transaction s newId now amount category description
      tags).1.transactions = s.transactions
  ∧ StorageManager.get_balance (AccountingTools.add_transaction s newId now
      amount category description tags).1 = StorageManager.get_balance s
  ∧ (AccountingTools.add_transaction s newId now amount category description
      tags).2.success = false := by
  refine ⟨?_, ?_, ?_, ?_⟩ <;>
    simp [AccountingTools.add_transaction, h, AddResult.success]

theorem C2_invalid_category_rejected_witness :
    ("nonexistent" ∉ (StorageManager.get_categories initStore).map
      (fun c => c.name))
    ∧ (AccountingTools.add_transaction initStore "id-9" 0 (-5) "nonexistent"
        none none).1.transactions = initStore.transactions :=
  ⟨by decide,
   (C2_invalid_category_rejected initStore "id-9" 0 (-5) "nonexistent"
     none none (by decide)).2.1⟩

/-! ## Claims C9 and C4: filter semantics of `get_transactions` -/

theorem filterLoop_empty_category (sd ed : Option Nat) :
    ∀ l, filterLoop (some "") sd ed l = filterLoop none sd ed l := by
  intro l
  rw [filterLoop_eq_filter, filterLoop_eq_filter]
  apply List.filter_congr
  intro t _
  simp [catSkip]

/-- C9: supplying the empty string as the category filter behaves as if
no category filter were supplied, both in the store's `get_transactions`
and in the tool `list_transactions`: Python's `if category and ...`
treats `""` as falsy. -/
theorem C9_empty_category_is_no_filter (s : Store) :
    (∀ sd ed : Option Nat,
      StorageManager.get_transactions s (some "") sd ed
        = StorageManager.get_transactions s none sd ed)
  ∧ ∀ (now : Nat) (days : Option Nat),
      AccountingTools.list_transactions s now (some "") days
        = AccountingTools.list_transactions s now none days := by
  constructor
  · intro sd ed
    unfold StorageManager.get_transactions
    rw [filterLoop_empty_category]
  · intro now days
    unfold AccountingTools.list_transactions StorageManager.get_transactions
    simp only [filterLoop_empty_category]

/-- Filter predicate following the claim's words: category equal to `c`
(when supplied), `s ≤ timestamp` and `timestamp ≤ e` (when supplied). -/
def specMatches (c : Option String) (sd ed : Option Nat)
    (t : Transaction) : Bool :=
  (match c with
   | some c2 => t.category == c2
   | none => true)
  && (match sd with
      | some d => decide (d ≤ t.timestamp)
      | none => true)
  && (match ed with
      | some d => decide (t.timestamp ≤ d)
      | none => true)

theorem not_lt_decide (ts d : Nat) :
    (!decide (ts < d)) = decide (d ≤ ts) := by
  by_cases h : ts < d
  · have h2 : ¬ d ≤ ts := by omega
    simp [h, h2]
  · have h2 : d ≤ ts := by omega
    simp [h, h2]

theorem code_filter_eq_specMatches (c : Option String) (sd ed : Option Nat)
    (h : c ≠ some "") (t : Transaction) :
    (!catSkip c t && !startSkip sd t && !endSkip ed t)
      = specMatches c sd ed t := by
  rcases c with _ | c2
  · rcases sd with _ | d <;> rcases ed with _ | d2 <;>
      simp [catSkip, startSkip, endSkip, specMatches, not_lt_decide, Nat.not_lt]
  · have hne : c2 ≠ "" := fun hc => h (by rw [hc])
    have hb : (c2 == "") = false := beq_eq_false_iff_ne.mpr hne
    rcases sd with _ | d <;> rcases ed with _ | d2 <;>
      simp [catSkip, startSkip, endSkip, specMatches, hb, not_lt_decide,
        Nat.not_lt]

/-- C4 (amended): for every store and every supplied filter combination
whose category filter, when supplied, is not the empty string,
`ListTransactions` returns exactly (as a multiset) the transactions
matching all supplied filters — category equal to `c`, and
`s ≤ timestamp` and `timestamp ≤ e` (both bounds inclusive) — and the
result is ordered by timestamp descending.  (The empty-string category
proviso is forced by the counterexample: `""` is falsy in Python, so it
disables the category filter instead of selecting empty categories.) -/
theorem C4_list_filter_correctness (s : Store) (c : Option String)
    (sd ed : Option Nat) (h : c ≠ some "") :
    List.Perm (StorageManager.get_transactions s c sd ed)
      (s.transactions.filter (specMatches c sd ed))
  ∧ List.Pairwise Desc (StorageManager.get_transactions s c sd ed) := by
  constructor
  · have hperm := get_transactions_perm s c sd ed
    have hfil : s.transactions.filter
        (fun t => !catSkip c t && !startSkip sd t && !endSkip ed t)
        = s.transactions.filter (specMatches c sd ed) :=
      List.filter_congr (fun t _ => code_filter_eq_specMatches c sd ed h t)
    exact hfil ▸ hperm
  · exact get_transactions_pairwise s c sd ed

/-- A stored transaction whose category is `"food"`. -/
def c4Txn : Transaction :=
  ⟨some "t1", -50, "food", some "lunch", 1000, []⟩

/-- A store holding only `c4Txn`. -/
def c4Store : Store :=
  ⟨[c4Txn], defaultCategories, -50⟩

theorem C4_counterexample :
    StorageManager.get_transactions c4Store (some "") none none = [c4Txn]
  ∧ c4Store.transactions.filter (fun t => t.category == "") = []
  ∧ c4Txn.category ≠ "" := by
  refine ⟨by decide, by decide, by decide⟩

theorem C4_list_filter_correctness_witness :
    (some "food" ≠ (some "" : Option String))
    ∧ List.Perm (StorageManager.get_transactions c4Store (some "food") none none)
        (c4Store.transactions.filter (specMatches (some "food") none none)) :=
  ⟨by decide,
   (C4_list_filter_correctness c4Store (some "food") none none (by decide)).1⟩

/-! ## Claims C5, C6, C10: dispatcher behaviour -/

/-- C5: a request without the `jsonrpc: "2.0"` tag (absent or any other
value) is answered with error code -32600 and the request's identifier
(`none` both for an absent and for a `null` id), and the result does not
depend on the method or resource tables (no lookup is consulted); the
same code -32600 answers a tagged request carrying neither a `method`
nor a `resource` field. -/
theorem C5_invalid_request_rejected {π ρ : Type} (s s2 : Server π ρ)
    (req : Request π) :
    (req.jsonrpc ≠ some "2.0" →
      handle_request s req
        = ⟨"2.0", RespBody.error (-32600) "无效的JSON-RPC请求" none, req.id⟩
      ∧ handle_request s2 req = handle_request s req)
  ∧ (req.jsonrpc = some "2.0" → req.method = none → req.resource = none →
      handle_request s req
        = ⟨"2.0",
           RespBody.error (-32600) "请求必须包含 method 或 resource 字段" none,
           req.id⟩
      ∧ handle_request s2 req = handle_request s req) := by
  constructor
  · intro h
    have hb : (req.jsonrpc != some "2.0") = true := bne_iff_ne.mpr h
    constructor <;> simp [handle_request, hb]
  · intro h1 h2 h3
    constructor <;> simp [handle_request, h1, h2, h3]

/-- A request with no protocol tag at all. -/
def c5Req : Request Unit :=
  ⟨none, none, some "get_balance", none, none⟩

/-- An empty server (no tools, no resources). -/
def c5Server : Server Unit Unit :=
  ⟨[], []⟩

theorem C5_invalid_request_rejected_witness :
    c5Req.jsonrpc ≠ some "2.0"
    ∧ handle_request c5Server c5Req
        = ⟨"2.0", RespBody.error (-32600) "无效的JSON-RPC请求" none, c5Req.id⟩ :=
  ⟨by decide,
   ((C5_invalid_request_rejected c5Server c5Server c5Req).1 (by decide)).1⟩

theorem batch_filter_keeps {ρ : Type} (r : Response ρ) :
    (!(respKeys r).isEmpty && (respKeys r).contains "id") = true := by
  rcases r with ⟨j, b, i⟩
  cases b <;> rfl

theorem processBatch_eq_map {π ρ : Type} (s : Server π ρ)
    (reqs : List (Request π)) :
    processBatch s reqs = reqs.map (handle_request s) := by
  unfold processBatch
  exact List.filter_eq_self.mpr (fun r _ => batch_filter_keeps r)

/-- C6: when the looked-up method handler fails (missing required
parameter or any runtime error), the dispatcher answers with error code
-32602, the underlying failure message, the stack-style trace in the
`data` field, and the request's identifier; the failure never escapes —
the batch loop appends this response and continues with the remaining
requests. -/
theorem C6_handler_error_wrapped {π ρ : Type} (s : Server π ρ)
    (req : Request π) (m : String) (hd : Option π → Except PyError ρ)
    (e : PyError) (h1 : req.jsonrpc = some "2.0") (h2 : req.method = some m)
    (h3 : s.tools.lookup m = some hd)
    (h4 : hd req.params = Except.error e) :
    handle_request s req
      = ⟨"2.0",
         RespBody.error (-32602) ("方法执行错误: " ++ e.msg) (some e.trace),
         req.id⟩
  ∧ ∀ rest : List (Request π),
      processBatch s (req :: rest)
        = handle_request s req :: processBatch s rest := by
  constructor
  · simp [handle_request, h1, h2, h3, h4]
  · intro rest
    rw [processBatch_eq_map, processBatch_eq_map, List.map_cons]

/-- A handler that always raises (e.g. a missing required parameter). -/
def c6Handler : Option Unit → Except PyError Unit :=
  fun _ => Except.error ⟨"missing parameter", "Traceback"⟩

/-- A server exposing only that handler. -/
def c6Server : Server Unit Unit :=
  ⟨[("add_transaction", c6Handler)], []⟩

/-- A well-formed call to the failing handler. -/
def c6Req : Request Unit :=
  ⟨some "2.0", some (RpcId.num 7), some "add_transaction", none, none⟩

theorem C6_handler_error_wrapped_witness :
    c6Server.tools.lookup "add_transaction" = some c6Handler
    ∧ c6Handler c6Req.params
        = Except.error ⟨"missing parameter", "Traceback"⟩
    ∧ handle_request c6Server c6Req
        = ⟨"2.0",
           RespBody.error (-32602) ("方法执行错误: " ++ "missing parameter")
             (some "Traceback"), c6Req.id⟩ :=
  ⟨rfl, rfl,
   (C6_handler_error_wrapped c6Server c6Req "add_transaction" c6Handler
     ⟨"missing parameter", "Traceback"⟩ rfl rfl rfl rfl).1⟩

/-- C10: a request carrying both a `method` and a `resource` field is
dispatched purely as a method call: the response does not depend on the
resource table, and it equals the response to the same request with the
`resource` field removed. -/
theorem C10_method_shadows_resource {π ρ : Type}
    (tools : List (String × (Option π → Except PyError ρ)))
    (res1 res2 : List (String × (Unit → Except PyError ρ)))
    (req : Request π) (m r : String)
    (h1 : req.method = some m) (h2 : req.resource = some r) :
    handle_request ⟨tools, res1⟩ req = handle_request ⟨tools, res2⟩ req
  ∧ handle_request ⟨tools, res1⟩ req
      = handle_request ⟨tools, res1⟩ { req with resource := none } := by
  rcases req with ⟨j, i, me, p, re⟩
  cases h1
  constructor <;> (by_cases hj : (j != some "2.0") = true <;>
    simp [handle_request, hj])

/-- A request naming both a method and a resource. -/
def c10Req : Request Unit :=
  ⟨some "2.0", some (RpcId.num 1), some "get_balance", none,
   some "transactions://all"⟩

theorem C10_method_shadows_resource_witness :
    c10Req.method = some "get_balance"
    ∧ c10Req.resource = some "transactions://all"
    ∧ handle_request (⟨[], []⟩ : Server Unit Unit) c10Req
        = handle_request
            (⟨[], [("transactions://all", fun _ => Except.ok ())]⟩ :
              Server Unit Unit) c10Req :=
  ⟨rfl, rfl,
   (C10_method_shadows_resource [] []
     [("transactions://all", fun _ => Except.ok ())] c10Req
     "get_balance" "transactions://all" rfl rfl).1⟩

/-! ## Claim C3: batch semantics -/

/-- An empty server for the batch counterexample. -/
def c3Server : Server Unit Unit :=
  ⟨[], []⟩

/-- A notification: a valid envelope that carries no request id. -/
def c3Notification : Request Unit :=
  ⟨some "2.0", none, some "get_balance", none, none⟩

theorem C3_counterexample :
    ([c3Notification].countP (fun r => r.id.isSome) = 0)
  ∧ (processBatch c3Server [c3Notification]).length = 1
  ∧ batchOutput c3Server [c3Notification] ≠ none := by
  refine ⟨by decide, by decide, by decide⟩

/-- C3 (amended): every element of a batch — identifier-carrying or not —
produces exactly one response entry, in batch order (every response
dictionary built by `handle_request` contains the key `"id"`, with value
`null` when the request had none, so the loop's `"id" in response` test
always passes); consequently the batch yields N response entries for N
envelopes, and no output is emitted exactly for an empty batch. -/
theorem C3_batch_response_per_envelope {π ρ : Type} (s : Server π ρ)
    (reqs : List (Request π)) :
    processBatch s reqs = reqs.map (handle_request s)
  ∧ (processBatch s reqs).length = reqs.length
  ∧ (batchOutput s reqs = none ↔ reqs = []) := by
  have hmap := processBatch_eq_map s reqs
  refine ⟨hmap, by rw [hmap, List.length_map], ?_⟩
  unfold batchOutput
  rcases hr : reqs with _ | ⟨a, l⟩
  · simp [processBatch]
  · rw [← hr, hmap, hr]
    simp

/-! ## Claim C7: monthly summary time boundary -/

/-- C7 (amended): `GetMonthlySummary` aggregates exactly (as a multiset)
the transactions whose timestamp `t` satisfies
`month-start ≤ t ≤ end`, where `end` is the computed
"last second of the month" (start of the next month minus one second),
the filter being a simple `≤` against that value — not the claimed
exclusive next-month-start boundary: timestamps strictly between `end`
and the next month's start (the fractional part of the month's final
second) are excluded. -/
theorem C7_month_selection (s : Store) (y m : Nat) :
    List.Perm (monthTransactions s y m)
      (s.transactions.filter (fun t =>
        decide (monthStartMicros y m ≤ t.timestamp)
        && decide (t.timestamp ≤ monthEndMicros y m))) := by
  have hperm := get_transactions_perm s none (some (monthStartMicros y m))
    (some (monthEndMicros y m))
  have hfil : s.transactions.filter
      (fun t => !catSkip none t && !startSkip (some (monthStartMicros y m)) t
        && !endSkip (some (monthEndMicros y m)) t)
      = s.transactions.filter (fun t =>
          decide (monthStartMicros y m ≤ t.timestamp)
          && decide (t.timestamp ≤ monthEndMicros y m)) := by
    apply List.filter_congr
    intro t _
    simp [catSkip, startSkip, endSkip, not_lt_decide, Nat.not_lt]
  exact hfil ▸ hperm

/-- An income posted in the last half-second of January 2024
(2024-01-31 23:59:59.500000). -/
def c7Txn : Transaction :=
  ⟨some "t7", 100, "salary", none, monthStartMicros 2024 2 - 500000, []⟩

/-- A store holding only `c7Txn`. -/
def c7Store : Store :=
  ⟨[c7Txn], defaultCategories, 100⟩

theorem C7_counterexample :
    monthStartMicros 2024 1 ≤ c7Txn.timestamp
  ∧ c7Txn.timestamp < monthStartMicros 2024 2
  ∧ c7Txn ∉ monthTransactions c7Store 2024 1
  ∧ (AccountingTools.get_monthly_summary c7Store 2024 1).total_income = 0 := by
  refine ⟨by decide, by decide, by decide, by decide⟩

/-! ## Claim C8: monthly summary arithmetic -/

/-- Spec-side: the month has at least one negative-amount transaction in
category `cat`. -/
def specHasNegExpense (T : List Transaction) (cat : String) : Bool :=
  T.any (fun t => decide (t.amount < 0) && (t.category == cat))

/-- Spec-side: summed absolute value of the negative amounts of category
`cat`. -/
def specNegExpenseSum (T : List Transaction) (cat : String) : ℚ :=
  ((T.filter (fun t => decide (t.amount < 0) && (t.category == cat))).map
    (fun t => |t.amount|)).sum

theorem specNegExpenseSum_cons (t : Transaction) (ts : List Transaction)
    (cat : String) :
    specNegExpenseSum (t :: ts) cat
      = if (decide (t.amount < 0) && (t.category == cat)) = true
        then |t.amount| + specNegExpenseSum ts cat
        else specNegExpenseSum ts cat := by
  by_cases hp : (decide (t.amount < 0) && (t.category == cat)) = true
  · simp [specNegExpenseSum, List.filter_cons, hp]
  · simp [specNegExpenseSum, List.filter_cons, hp]

theorem specHasNegExpense_cons (t : Transaction) (ts : List Transaction)
    (cat : String) :
    specHasNegExpense (t :: ts) cat
      = ((decide (t.amount < 0) && (t.category == cat))
          || specHasNegExpense ts cat) := by
  simp [specHasNegExpense]

theorem lookup_updateAssoc (m : List (String × ℚ)) (k : String) (f : ℚ → ℚ)
    (c : String) :
    (updateAssoc m k f).lookup c
      = if c = k then (m.lookup c).map f else m.lookup c := by
  induction m with
  | nil => simp [updateAssoc]
  | cons p rest ih =>
    rcases p with ⟨a, v⟩
    by_cases hak : a = k
    · subst hak
      by_cases hca : c = a
      · subst hca
        simp [updateAssoc, List.lookup]
      · have hb : (c == a) = false := beq_eq_false_iff_ne.mpr hca
        simp [updateAssoc, List.lookup, hca, hb]
    · have hab : (a == k) = false := beq_eq_false_iff_ne.mpr hak
      by_cases hca : c = a
      · subst hca
        have hck : c ≠ k := hak
        simp [updateAssoc, List.lookup, hab, hck]
      · have hb : (c == a) = false := beq_eq_false_iff_ne.mpr hca
        simp [updateAssoc, List.lookup, hab, hb, ih]

theorem lookup_append_single (m : List (String × ℚ)) (k : String) (v : ℚ)
    (c : String) :
    (m ++ [(k, v)]).lookup c
      = match m.lookup c with
        | some w => some w
        | none => if c = k then some v else none := by
  induction m with
  | nil =>
    by_cases hck : c = k
    · subst hck
      simp [List.lookup]
    · have hb : (c == k) = false := beq_eq_false_iff_ne.mpr hck
      simp [List.lookup, hb, hck]
  | cons p rest ih =>
    rcases p with ⟨a, w⟩
    by_cases hca : c = a
    · subst hca
      simp [List.lookup]
    · have hb : (c == a) = false := beq_eq_false_iff_ne.mpr hca
      simp [List.lookup, hb, ih]

theorem categoryExpensesLoop_lookup :
    ∀ (ts : List Transaction) (acc : List (String × ℚ)) (cat : String),
      (categoryExpensesLoop acc ts).lookup cat
        = match acc.lookup cat with
          | some v => some (v + specNegExpenseSum ts cat)
          | none =>
            if specHasNegExpense ts cat = true
            then some (specNegExpenseSum ts cat) else none
  | [], acc, cat => by
    rcases hl : acc.lookup cat with _ | v <;>
      simp [categoryExpensesLoop, specNegExpenseSum, specHasNegExpense, hl]
  | t :: ts, acc, cat => by
    by_cases hneg : t.amount < 0
    · have hstep : categoryExpensesLoop acc (t :: ts)
          = categoryExpensesLoop
              (updateAssoc
                (if (acc.lookup t.category).isNone
                 then acc ++ [(t.category, 0)] else acc)
                t.category (fun v => v + |t.amount|)) ts := by
        simp [categoryExpensesLoop, hneg]
      rw [hstep, categoryExpensesLoop_lookup ts _ cat, lookup_updateAssoc]
      by_cases hcat : cat = t.category
      · subst hcat
        rcases hl : acc.lookup t.category with _ | v
        · simp [hl, lookup_append_single, specNegExpenseSum_cons,
            specHasNegExpense_cons, hneg]
        · simp [hl, specNegExpenseSum_cons, specHasNegExpense_cons, hneg,
            add_assoc]
      · have hbc : (t.category == cat) = false :=
          beq_eq_false_iff_ne.mpr (fun hc => hcat hc.symm)
        rcases hl : acc.lookup t.category with _ | v <;>
          rcases hl2 : acc.lookup cat with _ | w <;>
          simp [hl, hl2, hcat, lookup_append_single, specNegExpenseSum_cons,
            specHasNegExpense_cons, hbc]
    · have hstep : categoryExpensesLoop acc (t :: ts)
          = categoryExpensesLoop acc ts := by
        simp [categoryExpensesLoop, hneg]
      have hbe : (decide (t.amount < 0) && (t.category == cat)) = false := by
        simp [hneg]
      rw [hstep, categoryExpensesLoop_lookup ts acc cat]
      rcases hl : acc.lookup cat with _ | v <;>
        simp [hl, specNegExpenseSum_cons, specHasNegExpense_cons, hbe]

theorem assocKeys_updateAssoc (m : List (String × ℚ)) (k : String)
    (f : ℚ → ℚ) :
    (updateAssoc m k f).map Prod.fst = m.map Prod.fst := by
  induction m with
  | nil => rfl
  | cons p rest ih =>
    rcases p with ⟨a, v⟩
    by_cases hak : a = k <;> simp [updateAssoc, hak, ih]

theorem lookup_none_not_mem_keys :
    ∀ (m : List (String × ℚ)) (c : String),
      m.lookup c = none → c ∉ m.map Prod.fst
  | [], c, _ => by simp
  | (a, v) :: rest, c, h => by
    by_cases hca : c = a
    · subst hca
      simp [List.lookup] at h
    · have hb : (c == a) = false := beq_eq_false_iff_ne.mpr hca
      simp only [List.lookup, hb] at h
      have hrest := lookup_none_not_mem_keys rest c h
      simp [hca, hrest]

theorem categoryExpensesLoop_keys_nodup :
    ∀ (ts : List Transaction) (acc : List (String × ℚ)),
      (acc.map Prod.fst).Nodup →
      ((categoryExpensesLoop acc ts).map Prod.fst).Nodup
  | [], acc, h => h
  | t :: ts, acc, h => by
    by_cases hneg : t.amount < 0
    · have hstep : categoryExpensesLoop acc (t :: ts)
          = categoryExpensesLoop
              (updateAssoc
                (if (acc.lookup t.category).isNone
                 then acc ++ [(t.category, 0)] else acc)
                t.category (fun v => v + |t.amount|)) ts := by
        simp [categoryExpensesLoop, hneg]
      rw [hstep]
      apply categoryExpensesLoop_keys_nodup ts
      rw [assocKeys_updateAssoc]
      rcases hl : acc.lookup t.category with _ | v
      · have hnm := lookup_none_not_mem_keys acc t.category hl
        simp [hl, List.nodup_append, h, hnm]
      · simpa [hl] using h
    · have hstep : categoryExpensesLoop acc (t :: ts)
          = categoryExpensesLoop acc ts := by
        simp [categoryExpensesLoop, hneg]
      rw [hstep]
      exact categoryExpensesLoop_keys_nodup ts acc h

theorem foldl_add_eq_sum :
    ∀ (l : List ℚ) (a : ℚ), l.foldl (fun x y => x + y) a = a + l.sum
  | [], a => by simp
  | x :: l, a => by
    rw [List.foldl_cons, foldl_add_eq_sum l (a + x), List.sum_cons]
    ring

theorem sumIncome_eq (T : List Transaction) :
    sumIncome T
      = ((T.filter (fun t => decide (0 < t.amount))).map
          (fun t => t.amount)).sum := by
  unfold sumIncome
  rw [foldl_add_eq_sum, zero_add]

theorem sumExpense_eq (T : List Transaction) :
    sumExpense T
      = ((T.filter (fun t => decide (t.amount < 0))).map
          (fun t => |t.amount|)).sum := by
  unfold sumExpense
  rw [foldl_add_eq_sum, zero_add]

/-- The expense of the spec's scenario: 35 on `"food"`, 2024-01-10. -/
def c8TxnExpense : Transaction :=
  ⟨some "e1", -35, "food", some "lunch", dtMicros 2024 1 10 12 0 0 0, []⟩

/-- The income of the spec's scenario: 5000 on `"salary"`, 2024-01-15. -/
def c8TxnIncome : Transaction :=
  ⟨some "i1", 5000, "salary", none, dtMicros 2024 1 15 9 0 0 0, []⟩

/-- A store holding exactly the scenario's two transactions. -/
def c8Store : Store :=
  ⟨[c8TxnExpense, c8TxnIncome], defaultCategories, 4965⟩

theorem c8_scenario_eval :
    AccountingTools.get_monthly_summary c8Store 2024 1
      = ⟨"2024-01", 5000, 35, 4965, [("food", 35)]⟩ := by
  have hT : monthTransactions c8Store 2024 1 = [c8TxnIncome, c8TxnExpense] := by
    decide
  have h1 : monthStr 2024 1 = "2024-01" := by decide
  have hf2 : [c8TxnIncome, c8TxnExpense].filter
      (fun t => decide (0 < t.amount)) = [c8TxnIncome] := by decide
  have hf3 : [c8TxnIncome, c8TxnExpense].filter
      (fun t => decide (t.amount < 0)) = [c8TxnExpense] := by decide
  have h2 : sumIncome [c8TxnIncome, c8TxnExpense] = 5000 := by
    simp only [sumIncome, hf2, List.map, List.foldl, c8TxnIncome]
    norm_num
  have h3 : sumExpense [c8TxnIncome, c8TxnExpense] = 35 := by
    simp only [sumExpense, hf3, List.map, List.foldl, c8TxnExpense]
    norm_num
  have hp1 : ¬ c8TxnIncome.amount < 0 := by decide
  have hp2 : c8TxnExpense.amount < 0 := by decide
  have h5 : categoryExpensesLoop [] [c8TxnIncome, c8TxnExpense]
      = [("food", 35)] := by
    simp only [categoryExpensesLoop, hp1, hp2, if_true, if_false,
      List.lookup, updateAssoc, List.nil_append, Option.isNone_none,
      if_pos, ite_true, beq_self_eq_true, c8TxnExpense]
    norm_num
  simp only [AccountingTools.get_monthly_summary, hT, h1, h2, h3, h5]
  norm_num

/-- C8: over the transactions selected for the month,
`total_income` is the sum of the positive amounts, `total_expense` the
sum of absolute values of the negative amounts, `balance_change` their
difference, and `category_expenses` maps exactly the categories with at
least one negative-amount transaction to the summed absolute value of
those amounts (each key at most once); in particular the spec's
scenario month (one expense of 35 on food, one income of 5000) yields
`total_income = 5000`, `total_expense = 35`, `balance_change = 4965`,
`category_expenses = [("food", 35)]`. -/
theorem C8_monthly_summary_fields (s : Store) (y m : Nat) :
    (AccountingTools.get_monthly_summary s y m).total_income
      = (((monthTransactions s y m).filter
          (fun t => decide (0 < t.amount))).map (fun t => t.amount)).sum
  ∧ (AccountingTools.get_monthly_summary s y m).total_expense
      = (((monthTransactions s y m).filter
          (fun t => decide (t.amount < 0))).map (fun t => |t.amount|)).sum
  ∧ (AccountingTools.get_monthly_summary s y m).balance_change
      = (AccountingTools.get_monthly_summary s y m).total_income
        - (AccountingTools.get_monthly_summary s y m).total_expense
  ∧ (∀ cat : String,
      (AccountingTools.get_monthly_summary s y m).category_expenses.lookup cat
        = if specHasNegExpense (monthTransactions s y m) cat = true
          then some (specNegExpenseSum (monthTransactions s y m) cat)
          else none)
  ∧ ((AccountingTools.get_monthly_summary s y m).category_expenses.map
      Prod.fst).Nodup
  ∧ AccountingTools.get_monthly_summary c8Store 2024 1
      = ⟨"2024-01", 5000, 35, 4965, [("food", 35)]⟩ := by
  refine ⟨?_, ?_, ?_, ?_, ?_, c8_scenario_eval⟩
  · simp [AccountingTools.get_monthly_summary, sumIncome_eq]
  · simp [AccountingTools.get_monthly_summary, sumExpense_eq]
  · simp [AccountingTools.get_monthly_summary]
  · intro cat
    have := categoryExpensesLoop_lookup (monthTransactions s y m) [] cat
    simpa [AccountingTools.get_monthly_summary] using this
  · exact categoryExpensesLoop_keys_nodup (monthTransactions s y m) []
      (by simp)

end AccountingMCP
